import Mathlib

/-!
Verification of the collaborative delivery route optimisation model
(`collaborative_routing_balanced.py`).

The script builds an OR-Tools routing model over 14 locations (2 depots,
12 customers) with 4 vehicles (2 per depot), three resource dimensions
(Capacity, Distance, ArcCount) and a per-vehicle side constraint forcing
the ArcCount cumulative value at each vehicle's end to be at least 2.
Here the scenario data, the distance oracle, the dimension callbacks, the
model-building steps, the feasibility conditions those steps impose on any
returned solution, and the reporting / plotting stages are embedded as
executable Lean definitions, and the specified properties are proved
about them.
-/

set_option maxRecDepth 40000

namespace CollabRouting

/-- The `locations` dictionary of the script: name and integer 2D
coordinate, in source order (Python dicts preserve insertion order). -/
def locations : List (String × Int × Int) :=
  [("Depot A", 10, 50), ("Depot B", 60, 50),
   ("C1", 12, 45), ("C2", 15, 55), ("C3", 20, 48),
   ("C4", 18, 60), ("C5", 22, 52), ("C6", 25, 45),
   ("C7", 58, 47), ("C8", 62, 53), ("C9", 65, 48),
   ("C10", 68, 55), ("C11", 55, 60), ("C12", 70, 45)]

/-- `vehicles_per_depot = {"Depot A": 2, "Depot B": 2}`. -/
def vehicles_per_depot : List (String × Nat) := [("Depot A", 2), ("Depot B", 2)]

/-- `node_names = list(locations.keys())`. -/
def node_names : List String := locations.map (fun p => p.1)

/-- `coords = [locations[n] for n in node_names]`. -/
def coords : List (Int × Int) := locations.map (fun p => p.2)

/-- `n = len(coords)`. -/
def numNodes : Nat := coords.length

/-- Python's `str.startswith(p)`, on the underlying character list. -/
def str_starts_with (s p : String) : Bool := s.data.take p.data.length == p.data

/-- Squared Euclidean distance between two coordinates (the radicand of
`euclid` in the script, which is a non-negative integer). -/
def sqDist (a b : Int × Int) : Nat := ((a.1 - b.1) ^ 2 + (a.2 - b.2) ^ 2).toNat

/-- Greatest `m ≤ k` with `m * m ≤ d` (0 when there is none): auxiliary
for the integer square root, by downward search so that the kernel can
evaluate it. -/
def sqrtAux (d : Nat) : Nat → Nat
  | 0 => 0
  | k + 1 => if (k + 1) * (k + 1) ≤ d then k + 1 else sqrtAux d k

/-- Integer (floor) square root of `d`. -/
def natSqrt (d : Nat) : Nat := sqrtAux d d

/-- Nearest integer to the square root of `d` (so that
`isqrtRound d = round (Real.sqrt d)`, proved below): the integer-exact
semantics of Python's `int(round(d ** 0.5))`. -/
def isqrtRound (d : Nat) : Nat :=
  let r := natSqrt d
  if d ≤ r * r + r then r else r + 1

/-- `euclid(a, b) = int(round(((a[0]-b[0])**2 + (a[1]-b[1])**2) ** 0.5))`. -/
def euclid (a b : Int × Int) : Nat := isqrtRound (sqDist a b)

/-- `distance_matrix = [[euclid(coords[i], coords[j]) for j in range(n)] for i in range(n)]`. -/
def distance_matrix : List (List Nat) :=
  (List.range numNodes).map (fun i =>
    (List.range numNodes).map (fun j =>
      euclid (coords.getD i (0, 0)) (coords.getD j (0, 0))))

/-- Entry access `distance_matrix[i][j]` (defaulting to 0 out of range). -/
def matrixEntry (i j : Nat) : Nat := (distance_matrix.getD i []).getD j 0

/-- The `starts`/`ends` building loop: for each `(depot_name, cnt)` item of
`vehicles_per_depot`, look the depot up in the node-name list
(`index_of[depot_name]`, a `KeyError` if absent — modelled as
`Except.error`) and append `cnt` copies of its index to both lists. -/
def buildStartsEnds : List (String × Nat) → List String → Except String (List Nat × List Nat)
  | [], _ => .ok ([], [])
  | (dname, cnt) :: rest, names =>
    match names.findIdx? (fun s => s = dname) with
    | none => .error ("KeyError: " ++ dname)
    | some depot_idx =>
      match buildStartsEnds rest names with
      | .error msg => .error msg
      | .ok (s, e) => .ok (List.replicate cnt depot_idx ++ s, List.replicate cnt depot_idx ++ e)

/-- The start/end lists of the concrete scenario. -/
def startsEnds : Except String (List Nat × List Nat) := buildStartsEnds vehicles_per_depot node_names

/-- `starts` of the scenario. -/
def starts : List Nat :=
  match startsEnds with
  | .ok p => p.1
  | .error _ => []

/-- `ends` of the scenario. -/
def ends : List Nat :=
  match startsEnds with
  | .ok p => p.2
  | .error _ => []

/-- `num_vehicles = len(starts)`. -/
def num_vehicles : Nat := starts.length

/-- `dist_cb(from, to)`: the registered transit callback, looking the two
node indices up in the distance matrix. -/
def dist_cb (i j : Nat) : Nat := matrixEntry i j

/-- `demand_cb` generalised over the name table it closes over:
`0 if node_names[node].startswith("Depot") else 1`. -/
def demand_cb_over (names : List String) (node : Nat) : Nat :=
  if str_starts_with (names.getD node "") "Depot" then 0 else 1

/-- `demand_cb(index)` of the script (over the scenario's `node_names`). -/
def demand_cb (node : Nat) : Nat := demand_cb_over node_names node

/-- `one_per_arc_cb(from, to) = 1`. -/
def one_per_arc_cb (_from_index _to_index : Nat) : Nat := 1

/-- `vehicle_capacities = [4] * num_vehicles`. -/
def vehicle_capacities : List Nat := List.replicate num_vehicles 4

/-- One model-building call of the script, in the order the script issues
them: setting the arc-cost evaluator, adding a dimension (with a global or
per-vehicle capacity), or posting `solver.Add(dim.CumulVar(End(v)) >= lb)`.
Callbacks are referred to by the name of the registered callback index. -/
inductive ModelEvent where
  | setArcCostEvaluatorOfAllVehicles (cb : String)
  | addDimensionWithVehicleCapacity (cb : String) (slack : Nat) (caps : List Nat)
      (fix_start_cumul_to_zero : Bool) (name : String)
  | addDimension (cb : String) (slack : Nat) (cap : Nat)
      (fix_start_cumul_to_zero : Bool) (name : String)
  | addEndCumulLowerBound (dim : String) (vehicle : Nat) (lb : Nat)
  deriving DecidableEq

/-- The registered callbacks, by name. -/
def registeredCallback : String → (Nat → Nat → Nat)
  | "transit_idx" => dist_cb
  | "arc_idx" => one_per_arc_cb
  | _ => fun _ _ => 0

/-- The model-building calls of the script, in source order (lines 62–97):
the objective, the Capacity dimension, the Distance dimension, the
ArcCount dimension, and then — after the ArcCount dimension exists — one
`end_cumul >= 2` solver constraint per vehicle. -/
def modelEvents : List ModelEvent :=
  [.setArcCostEvaluatorOfAllVehicles "transit_idx",
   .addDimensionWithVehicleCapacity "demand_idx" 0 vehicle_capacities true "Capacity",
   .addDimension "transit_idx" 0 120 true "Distance",
   .addDimension "arc_idx" 0 1000 true "ArcCount"]
  ++ (List.range num_vehicles).map (fun v => .addEndCumulLowerBound "ArcCount" v 2)

/-! ## Route semantics

A vehicle's route is the ordered list of node indices it visits, from its
start node to its end node.  The cumulative value of a dimension at the
vehicle's end is the sum of the transit increments along the route: for a
binary (arc) callback the sum over consecutive pairs, for a unary (node)
callback the sum over the departed nodes (every node but the last). -/

/-- The consecutive arcs of a route. -/
def routeArcs : List Nat → List (Nat × Nat)
  | a :: b :: rest => (a, b) :: routeArcs (b :: rest)
  | _ => []

/-- End-of-route cumulative value of a dimension with a binary (arc)
transit callback. -/
def endCumulBinary (f : Nat → Nat → Nat) (r : List Nat) : Nat :=
  ((routeArcs r).map (fun p => f p.1 p.2)).sum

/-- End-of-route cumulative value of a dimension with a unary (node)
transit callback: the increment of a node is charged when leaving it. -/
def endCumulUnary (f : Nat → Nat) (r : List Nat) : Nat :=
  (r.dropLast.map f).sum

/-- The intermediate stops of a route (everything strictly between the
start node and the end node). -/
def interior (r : List Nat) : List Nat := (r.drop 1).dropLast

/-- The customer node indices of the scenario: the nodes that are not a
start or end anchor of any vehicle. -/
def customersIdx : Finset Nat :=
  (Finset.range numNodes).filter (fun i => ¬(i ∈ starts ∨ i ∈ ends))

/-- The feasibility conditions that the routing model imposes, at the
model level, on the per-vehicle routes of any returned solution:
each route runs from the vehicle's start anchor to its end anchor, its
intermediate stops are customer nodes, no customer is visited twice (in
one route or across routes), and the ArcCount side constraint
`end_cumul >= 2` holds for every vehicle. -/
def Feasible (numV : Nat) (startOf endOf : Nat → Nat) (customers : Finset Nat)
    (routes : Fin numV → List Nat) : Prop :=
  (∀ v : Fin numV, (routes v).head? = some (startOf v.val)) ∧
  (∀ v : Fin numV, (routes v).getLast? = some (endOf v.val)) ∧
  (∀ v : Fin numV, ∀ x ∈ interior (routes v), x ∈ customers) ∧
  (∀ v : Fin numV, (interior (routes v)).Nodup) ∧
  (∀ v w : Fin numV, v ≠ w → ∀ x ∈ interior (routes v), x ∉ interior (routes w)) ∧
  (∀ v : Fin numV, 2 ≤ endCumulBinary one_per_arc_cb (routes v))

instance (numV : Nat) (startOf endOf : Nat → Nat) (customers : Finset Nat)
    (routes : Fin numV → List Nat) :
    Decidable (Feasible numV startOf endOf customers routes) := by
  unfold Feasible
  infer_instance

/-- The vehicle start anchors of the scenario (`routing.Start(v)` maps to
node `starts[v]`). -/
def startOfVehicle (v : Nat) : Nat := starts.getD v 0

/-- The vehicle end anchors of the scenario. -/
def endOfVehicle (v : Nat) : Nat := ends.getD v 0

/-- Full feasibility for the concrete scenario model: the structural
conditions together with the bound of each of the three dimensions
(Capacity ≤ 4 per vehicle, Distance ≤ 120, ArcCount ≤ 1000). -/
def FeasibleSol (routes : Fin num_vehicles → List Nat) : Prop :=
  Feasible num_vehicles startOfVehicle endOfVehicle customersIdx routes ∧
  (∀ v : Fin num_vehicles, endCumulUnary demand_cb (routes v) ≤ vehicle_capacities.getD v.val 0) ∧
  (∀ v : Fin num_vehicles, endCumulBinary dist_cb (routes v) ≤ 120) ∧
  (∀ v : Fin num_vehicles, endCumulBinary one_per_arc_cb (routes v) ≤ 1000)

instance (routes : Fin num_vehicles → List Nat) : Decidable (FeasibleSol routes) := by
  unfold FeasibleSol
  infer_instance

/-- A concrete feasible solution of the scenario model, used to witness
the feasibility hypotheses below: each vehicle leaves its depot, serves
one nearby customer and returns. -/
def wRoutes : Fin num_vehicles → List Nat :=
  fun v => [[0, 2, 0], [0, 3, 0], [1, 8, 1], [1, 9, 1]].getD v.val []

/-! ## Solution extractor (`print_solution`)

The extractor walks, for each vehicle, from the start index along the
solved `next` transitions until an end index is reached, collecting the
stop sequence and accumulating the arc cost of each transition taken.
`next`, `isEnd` and the arc-cost function are the solver outputs it
queries (`solution.Value(routing.NextVar(i))`, `routing.IsEnd(i)`,
`routing.GetArcCostForVehicle`); `fuel` bounds the loop. -/

/-- One vehicle's walk of `print_solution`: the visited index sequence
(end index included) and the accumulated route distance. -/
def extractRoute (next : Nat → Nat) (isEnd : Nat → Bool) (cost : Nat → Nat → Nat) :
    Nat → Nat → List Nat × Nat
  | 0, idx => ([idx], 0)
  | fuel + 1, idx =>
    if isEnd idx then ([idx], 0)
    else
      let nxt := next idx
      let r := extractRoute next isEnd cost fuel nxt
      (idx :: r.1, cost idx nxt + r.2)

/-- Sum of the costs of the consecutive pairs of a stop sequence. -/
def pairSum (cost : Nat → Nat → Nat) : List Nat → Nat
  | a :: b :: rest => cost a b + pairSum cost (b :: rest)
  | _ => 0

/-- The whole of `print_solution`: the per-vehicle walks (from each start
index in `startIdxs`) and the reported total distance, accumulated route
by route. -/
def print_solution (next : Nat → Nat) (isEnd : Nat → Bool) (cost : Nat → Nat → Nat)
    (startIdxs : List Nat) (fuel : Nat) : List (List Nat × Nat) × Nat :=
  let rs := startIdxs.map (fun s => extractRoute next isEnd cost fuel s)
  (rs, rs.foldl (fun acc r => acc + r.2) 0)

/-! ## Reporting stage (lines 126–134)

`if not solution:` print a diagnostic; `else:` print the found-banner,
the node table, the routes header and then `print_solution()`.  The print
statements are modelled as an ordered list of output events. -/

/-- One line of the script's textual output. -/
inductive OutEvent where
  | noSolutionLine
  | balancedFoundLine
  | nodeTableLine (i : Nat) (name : String)
  | routesHeaderLine
  | truckLine (v : Nat) (dist : Nat) (route : List Nat)
  | totalLine (d : Nat)
  deriving DecidableEq

/-- The output lines of `print_solution()`. -/
def printSolutionOut (next : Nat → Nat) (isEnd : Nat → Bool) (cost : Nat → Nat → Nat)
    (startIdxs : List Nat) (fuel : Nat) : List OutEvent :=
  let rs := print_solution next isEnd cost startIdxs fuel
  ((List.range rs.1.length).zip rs.1).map (fun p => OutEvent.truckLine p.1 p.2.2 p.2.1)
    ++ [OutEvent.totalLine rs.2]

/-- The report of the run: the solver hands back `none` (no solution) or
the solved `next` assignment, and the script prints accordingly. -/
def mainReport (sol : Option (Nat → Nat)) (isEnd : Nat → Bool) (cost : Nat → Nat → Nat)
    (startIdxs : List Nat) (fuel : Nat) : List OutEvent :=
  match sol with
  | none => [.noSolutionLine]
  | some next =>
    [OutEvent.balancedFoundLine]
      ++ ((List.range node_names.length).map
            (fun i => OutEvent.nodeTableLine i (node_names.getD i "")))
      ++ [OutEvent.routesHeaderLine]
      ++ printSolutionOut next isEnd cost startIdxs fuel

/-! ## Plotting stage (lines 136–161)

The whole block sits in `try: ... except Exception: pass` and runs
unconditionally after the if/else report — it is not inside the `else`
branch.  Inside, it imports matplotlib, creates a figure, and for each
vehicle walks the route exactly as the extractor does, except that the
walk reads `solution.Value(...)`: when the solver returned no solution
(`solution = None`) that read raises, the exception is swallowed and the
remaining statements (later vehicles, `plt.show()`) are skipped, while the
effects already performed (the figure creation) stand. -/

/-- An externally visible action of the plotting block. -/
inductive PlotEvent where
  | figureCreated
  | routePlotted (v : Nat)
  | plotShown
  deriving DecidableEq

/-- One vehicle's walk of the plotting loop: collects the stop indices,
but raises (models the Python `AttributeError` on `None.Value`) as soon
as a `next` transition is needed while no solution exists.  Exhausted
fuel is also modelled as an abort. -/
def plotWalk (sol : Option (Nat → Nat)) (isEnd : Nat → Bool) :
    Nat → Nat → Except Unit (List Nat)
  | fuel, idx =>
    if isEnd idx then .ok [idx]
    else
      match sol, fuel with
      | none, _ => .error ()
      | some _, 0 => .error ()
      | some next, fuel' + 1 =>
        match plotWalk sol isEnd fuel' (next idx) with
        | .error e => .error e
        | .ok rest => .ok (idx :: rest)

/-- The per-vehicle plotting loop: plots each route in turn; an exception
in one walk aborts the loop (no further vehicle is plotted).  Returns the
events emitted and whether the loop completed normally. -/
def plotVehicles (sol : Option (Nat → Nat)) (isEnd : Nat → Bool) (startOf : Nat → Nat)
    (fuel : Nat) : List Nat → List PlotEvent × Bool
  | [] => ([], true)
  | v :: rest =>
    match plotWalk sol isEnd fuel (startOf v) with
    | .error _ => ([], false)
    | .ok _ =>
      let r := plotVehicles sol isEnd startOf fuel rest
      (PlotEvent.routePlotted v :: r.1, r.2)

/-- The whole plotting block: nothing happens when the matplotlib import
fails; otherwise a figure is created, the vehicles are plotted, and
`plt.show()` runs only if the loop finished without an exception. -/
def runPlot (mpl : Bool) (sol : Option (Nat → Nat)) (isEnd : Nat → Bool)
    (startOf : Nat → Nat) (fuel : Nat) : List PlotEvent :=
  if mpl then
    let r := plotVehicles sol isEnd startOf fuel (List.range num_vehicles)
    PlotEvent.figureCreated :: (if r.2 then r.1 ++ [PlotEvent.plotShown] else r.1)
  else []

/-- A concrete solver index layout for instantiating the walk functions:
the 12 customer nodes keep their indices, each vehicle `v < 4` has start
index `14 + v` and end index `18 + v` (start and end indices are always
distinct in the solver's index space, even for the same depot node). -/
def exampleIsEnd (i : Nat) : Bool := decide (18 ≤ i ∧ i < 22)

/-- Start indices of the concrete layout. -/
def exampleStartOf (v : Nat) : Nat := 14 + v

/-! ## Configuration processing (lines 44–50)

The script performs no validation of its own: the only failure the
configuration stage can produce is the `KeyError` of `index_of[depot]`
inside `buildStartsEnds`.  `MalformedConfig` is the class of
configurations the specification calls malformed. -/

/-- Total number of vehicles a `vehicles_per_depot` table asks for. -/
def totalVehicleCount (vpd : List (String × Nat)) : Nat := (vpd.map (fun p => p.2)).sum

/-- A malformed configuration in the sense of the specification: a vehicle
count of zero, an empty Location set, or a referenced depot without a
coordinate. -/
def MalformedConfig (locs : List (String × Int × Int)) (vpd : List (String × Nat)) : Prop :=
  totalVehicleCount vpd = 0 ∨ locs = [] ∨
    ∃ p ∈ vpd, p.1 ∉ locs.map (fun q => q.1)

instance (locs : List (String × Int × Int)) (vpd : List (String × Nat)) :
    Decidable (MalformedConfig locs vpd) := by
  unfold MalformedConfig
  infer_instance

/-- A zero-vehicle configuration over the scenario's locations. -/
def zeroVehiclesConfig : List (String × Nat) := [("Depot A", 0), ("Depot B", 0)]

/-! ## Helper lemmas -/

theorem sqrtAux_mul_self_le (d : Nat) : ∀ k, sqrtAux d k * sqrtAux d k ≤ d := by
  intro k
  induction k with
  | zero => simp only [sqrtAux]; exact Nat.zero_le d
  | succ k ih =>
    by_cases h : (k + 1) * (k + 1) ≤ d
    · simp only [sqrtAux, if_pos h]; exact h
    · simp only [sqrtAux, if_neg h]; exact ih

theorem lt_sqrtAux_succ_mul (d : Nat) :
    ∀ k, d < (k + 1) * (k + 1) → d < (sqrtAux d k + 1) * (sqrtAux d k + 1) := by
  intro k
  induction k with
  | zero => intro h; simp only [sqrtAux]; exact h
  | succ k ih =>
    intro h
    by_cases hk : (k + 1) * (k + 1) ≤ d
    · simp only [sqrtAux, if_pos hk]; exact h
    · simpa [sqrtAux, hk] using ih (Nat.lt_of_not_le hk)

theorem natSqrt_mul_self_le (d : Nat) : natSqrt d * natSqrt d ≤ d :=
  sqrtAux_mul_self_le d d

theorem lt_natSqrt_succ_mul (d : Nat) : d < (natSqrt d + 1) * (natSqrt d + 1) := by
  refine lt_sqrtAux_succ_mul d d ?_
  nlinarith

/-- The integer nearest-rounding square root agrees with rounding the real
square root: the semantics `int(round(d ** 0.5))` the script relies on. -/
theorem isqrtRound_eq_round_sqrt (d : Nat) : (isqrtRound d : ℤ) = round (Real.sqrt d) := by
  have hd0 : (0 : ℝ) ≤ (d : ℝ) := by positivity
  have hlo : (natSqrt d : ℝ) * (natSqrt d : ℝ) ≤ (d : ℝ) := by
    exact_mod_cast natSqrt_mul_self_le d
  have hhi : (d : ℝ) < ((natSqrt d : ℝ) + 1) * ((natSqrt d : ℝ) + 1) := by
    exact_mod_cast lt_natSqrt_succ_mul d
  unfold isqrtRound
  by_cases hc : d ≤ natSqrt d * natSqrt d + natSqrt d
  · have hcR : (d : ℝ) ≤ (natSqrt d : ℝ) * (natSqrt d : ℝ) + (natSqrt d : ℝ) := by
      exact_mod_cast hc
    have h1 : (natSqrt d : ℝ) ≤ Real.sqrt d :=
      Real.le_sqrt_of_sq_le (by nlinarith)
    have h2 : Real.sqrt d < (natSqrt d : ℝ) + 1 / 2 := by
      rw [Real.sqrt_lt' (by positivity)]
      nlinarith
    rw [if_pos hc, round_eq]
    symm
    rw [Int.floor_eq_iff]
    constructor
    · push_cast
      linarith
    · push_cast
      linarith
  · have hcR : (natSqrt d : ℝ) * (natSqrt d : ℝ) + (natSqrt d : ℝ) + 1 ≤ (d : ℝ) := by
      have : natSqrt d * natSqrt d + natSqrt d + 1 ≤ d := Nat.lt_of_not_le hc
      exact_mod_cast this
    have h1 : (natSqrt d : ℝ) + 1 / 2 ≤ Real.sqrt d :=
      Real.le_sqrt_of_sq_le (by nlinarith)
    have h2 : Real.sqrt d < (natSqrt d : ℝ) + 1 := by
      rw [Real.sqrt_lt' (by positivity)]
      nlinarith
    rw [if_neg hc, round_eq]
    symm
    rw [Int.floor_eq_iff]
    constructor
    · push_cast
      linarith
    · push_cast
      linarith

theorem pairSum_eq_endCumulBinary (cost : Nat → Nat → Nat) :
    ∀ r, pairSum cost r = endCumulBinary cost r := by
  intro r
  match r with
  | [] => rfl
  | [a] => rfl
  | a :: b :: rest =>
    have ih := pairSum_eq_endCumulBinary cost (b :: rest)
    simp [pairSum, endCumulBinary, routeArcs] at ih ⊢
    omega

theorem routeArcs_length : ∀ r : List Nat, (routeArcs r).length = r.length - 1 := by
  intro r
  match r with
  | [] => rfl
  | [a] => rfl
  | a :: b :: rest =>
    have ih := routeArcs_length (b :: rest)
    simp [routeArcs] at ih ⊢
    omega

theorem endCumulBinary_one_per_arc (r : List Nat) :
    endCumulBinary one_per_arc_cb r = r.length - 1 := by
  unfold endCumulBinary
  rw [show ((routeArcs r).map fun p => one_per_arc_cb p.1 p.2) = (routeArcs r).map (fun _ => 1)
    from rfl]
  rw [List.map_const', List.sum_replicate, smul_eq_mul, mul_one, routeArcs_length]

theorem interior_length (r : List Nat) : (interior r).length = r.length - 2 := by
  unfold interior
  rw [List.length_dropLast, List.length_drop]
  omega

theorem interior_ne_nil_of_min_visit (r : List Nat)
    (h : 2 ≤ endCumulBinary one_per_arc_cb r) : interior r ≠ [] := by
  rw [endCumulBinary_one_per_arc] at h
  have hlen : 1 ≤ (interior r).length := by
    rw [interior_length]; omega
  exact List.ne_nil_of_length_pos hlen

theorem sum_map_eq_length_of_all_one (f : Nat → Nat) :
    ∀ l : List Nat, (∀ x ∈ l, f x = 1) → (l.map f).sum = l.length := by
  intro l
  induction l with
  | nil => intro _; rfl
  | cons a t ih =>
    intro h
    have ha : f a = 1 := h a (by simp)
    have ht := ih (fun x hx => h x (by simp [hx]))
    simp [ha, ht]
    omega

theorem endCumulUnary_cons (f : Nat → Nat) (a : Nat) (l : List Nat) (h : l ≠ []) :
    endCumulUnary f (a :: l) = f a + ((interior (a :: l)).map f).sum := by
  unfold endCumulUnary interior
  rw [List.dropLast_cons_of_ne_nil h]
  simp

theorem matrixEntry_eq_euclid (i j : Nat) (hi : i < numNodes) (hj : j < numNodes) :
    matrixEntry i j = euclid (coords.getD i (0, 0)) (coords.getD j (0, 0)) := by
  simp [matrixEntry, distance_matrix, List.getD_eq_getElem?_getD, List.getElem?_map,
    List.getElem?_range, hi, hj]

theorem sqDist_comm (a b : Int × Int) : sqDist a b = sqDist b a := by
  unfold sqDist
  congr 1
  ring

theorem euclid_comm (a b : Int × Int) : euclid a b = euclid b a := by
  unfold euclid
  rw [sqDist_comm]

theorem euclid_self (a : Int × Int) : euclid a a = 0 := by
  simp [euclid, sqDist, isqrtRound, natSqrt, sqrtAux]

/-! ## The claims -/

/-- **C4.** Every cost-matrix entry is the Euclidean distance of the two
locations' coordinates rounded to the nearest integer (`round ∘ Real.sqrt`
of the squared distance, not a truncation); entries are non-negative
integers by type (`Nat`), the matrix is symmetric, and the diagonal is
zero. -/
theorem distance_matrix_is_rounded_euclid (i j : Nat) (hi : i < numNodes) (hj : j < numNodes) :
    (matrixEntry i j : ℤ)
        = round (Real.sqrt ((sqDist (coords.getD i (0, 0)) (coords.getD j (0, 0)) : Nat) : ℝ)) ∧
    matrixEntry i j = matrixEntry j i ∧
    matrixEntry i i = 0 := by
  refine ⟨?_, ?_, ?_⟩
  · rw [matrixEntry_eq_euclid i j hi hj]
    exact isqrtRound_eq_round_sqrt _
  · rw [matrixEntry_eq_euclid i j hi hj, matrixEntry_eq_euclid j i hj hi, euclid_comm]
  · rw [matrixEntry_eq_euclid i i hi hi, euclid_self]

/-- Witness for C4 at the two depots: entry (0,1) is 50 (their coordinate
distance), and the theorem applies at those concrete indices. -/
theorem distance_matrix_is_rounded_euclid_witness :
    0 < numNodes ∧ 1 < numNodes ∧
    ((matrixEntry 0 1 : ℤ)
        = round (Real.sqrt ((sqDist (coords.getD 0 (0, 0)) (coords.getD 1 (0, 0)) : Nat) : ℝ)) ∧
      matrixEntry 0 1 = matrixEntry 1 0 ∧
      matrixEntry 0 0 = 0) :=
  ⟨by decide, by decide, distance_matrix_is_rounded_euclid 0 1 (by decide) (by decide)⟩

/-- **C10.** A node contributes 0 to the Capacity demand exactly when its
name starts with the string "Depot" — the depot/customer distinction is
purely by name: a location named with that five-character start is exempt
from capacity counting even if it is meant as a customer (shown on a
hypothetical fifteenth location "Depot C13"). -/
theorem depot_distinction_is_by_name :
    (∀ names node, demand_cb_over names node = 0 ↔
      str_starts_with (names.getD node "") "Depot" = true) ∧
    (∀ node, demand_cb node = demand_cb_over node_names node) ∧
    demand_cb_over (node_names ++ ["Depot C13"]) 14 = 0 := by
  refine ⟨?_, fun _ => rfl, by decide⟩
  intro names node
  unfold demand_cb_over
  cases h : str_starts_with (names.getD node "") "Depot" <;> simp [h]

/-- **C9.** When the solver hands back no solution, the report is exactly
the diagnostic line: no route line, no total line, no found-banner is
printed, and the reporting function is total (no crash). -/
theorem no_solution_report_is_diagnostic_only (isEnd : Nat → Bool) (cost : Nat → Nat → Nat)
    (startIdxs : List Nat) (fuel : Nat) :
    mainReport none isEnd cost startIdxs fuel = [OutEvent.noSolutionLine] ∧
    (∀ v d r, OutEvent.truckLine v d r ∉ mainReport none isEnd cost startIdxs fuel) ∧
    (∀ d, OutEvent.totalLine d ∉ mainReport none isEnd cost startIdxs fuel) ∧
    OutEvent.balancedFoundLine ∉ mainReport none isEnd cost startIdxs fuel := by
  refine ⟨rfl, ?_, ?_, ?_⟩ <;> simp [mainReport]

/-- **C8 counterexample.** The all-zero vehicle count is a malformed
configuration, yet the configuration-processing stage completes without
any error (so no descriptive configuration error is raised before search
setup): the claim fails as stated. -/
theorem zero_vehicle_config_not_rejected :
    MalformedConfig locations zeroVehiclesConfig ∧
    buildStartsEnds zeroVehiclesConfig (locations.map (fun p => p.1)) = .ok ([], []) := by
  constructor
  · exact Or.inl (by decide)
  · rfl

theorem buildStartsEnds_error_of_missing_depot (vpd : List (String × Nat)) :
    ∀ names : List String, (∃ p ∈ vpd, p.1 ∉ names) →
    ∃ msg, buildStartsEnds vpd names = .error msg := by
  induction vpd with
  | nil =>
    rintro names ⟨p, hp, _⟩
    simp at hp
  | cons q rest ih =>
    rintro names ⟨p, hp, hnp⟩
    rcases List.mem_cons.mp hp with hq | hrest
    · obtain ⟨d, c⟩ := q
      have hd : d = p.1 := by rw [hq]
      subst hd
      have hf : names.findIdx? (fun s => s = p.1) = none := by
        rw [List.findIdx?_eq_none_iff]
        intro x hx
        simp only [decide_eq_false_iff_not]
        intro hxe
        exact hnp (hxe ▸ hx)
      exact ⟨"KeyError: " ++ p.1, by simp [buildStartsEnds, hf]⟩
    · obtain ⟨msg, hmsg⟩ := ih names ⟨p, hrest, hnp⟩
      obtain ⟨d, c⟩ := q
      cases hf : names.findIdx? (fun s => s = d) with
      | none => exact ⟨"KeyError: " ++ d, by simp [buildStartsEnds, hf]⟩
      | some i => exact ⟨msg, by simp [buildStartsEnds, hf, hmsg]⟩

/-- **C8 amended.** Of the malformed configurations, only a depot
referenced without a coordinate is rejected before search: the
`index_of[depot]` lookup fails fast (a `KeyError` naming the depot) while
the start/end lists are being built.  A zero vehicle count or an empty
location set with no depot reference sails through unvalidated (see the
counterexample). -/
theorem missing_depot_fails_before_search (locs : List (String × Int × Int))
    (vpd : List (String × Nat))
    (h : ∃ p ∈ vpd, p.1 ∉ locs.map (fun q => q.1)) :
    ∃ msg, buildStartsEnds vpd (locs.map (fun q => q.1)) = .error msg :=
  buildStartsEnds_error_of_missing_depot vpd (locs.map (fun q => q.1)) h

/-- Witness for the amended C8: the configuration referencing the
coordinate-less "Depot C" is rejected by the lookup. -/
theorem missing_depot_fails_before_search_witness :
    (∃ p ∈ [("Depot C", 2)], p.1 ∉ locations.map (fun q => q.1)) ∧
    ∃ msg, buildStartsEnds [("Depot C", 2)] (locations.map (fun q => q.1)) = .error msg :=
  ⟨by decide, missing_depot_fails_before_search locations [("Depot C", 2)] (by decide)⟩

/-- **C7 counterexample.** With matplotlib importable and the solver
returning no solution, the plotting block is still exercised: it creates
a figure before the first access to the missing solution raises (the
block is not inside the `else` branch, and the exception is swallowed by
`except Exception: pass`). -/
theorem plot_path_exercised_without_solution :
    runPlot true none exampleIsEnd exampleStartOf 10 ≠ [] := by decide

/-- **C7 amended.** When the solver returns no solution, no route is
plotted and the plot is never shown — the block aborts at its first read
of the missing solution, with only the figure creation already performed —
while the full plotting path runs only when a solution exists. -/
theorem plot_output_only_with_solution (isEnd : Nat → Bool) (startOf : Nat → Nat)
    (mpl : Bool) (fuel : Nat) (h : isEnd (startOf 0) = false) :
    runPlot mpl none isEnd startOf fuel = (if mpl then [PlotEvent.figureCreated] else []) ∧
    (∀ v, PlotEvent.routePlotted v ∉ runPlot mpl none isEnd startOf fuel) ∧
    PlotEvent.plotShown ∉ runPlot mpl none isEnd startOf fuel := by
  have hw : plotWalk none isEnd fuel (startOf 0) = .error () := by
    cases fuel <;> simp [plotWalk, h]
  have hr : List.range num_vehicles = [0, 1, 2, 3] := by decide
  have hv : plotVehicles none isEnd startOf fuel (List.range num_vehicles) = ([], false) := by
    rw [hr]
    unfold plotVehicles
    rw [hw]
  have h1 : runPlot mpl none isEnd startOf fuel = if mpl then [PlotEvent.figureCreated] else [] := by
    unfold runPlot
    rw [hv]
    cases mpl <;> simp
  refine ⟨h1, ?_, ?_⟩ <;> rw [h1] <;> cases mpl <;> simp

/-- Witness for the amended C7 at the concrete solver index layout. -/
theorem plot_output_only_with_solution_witness :
    exampleIsEnd (exampleStartOf 0) = false ∧
    (runPlot true none exampleIsEnd exampleStartOf 10
        = (if true then [PlotEvent.figureCreated] else []) ∧
      (∀ v, PlotEvent.routePlotted v ∉ runPlot true none exampleIsEnd exampleStartOf 10) ∧
      PlotEvent.plotShown ∉ runPlot true none exampleIsEnd exampleStartOf 10) :=
  ⟨by decide, plot_output_only_with_solution exampleIsEnd exampleStartOf true 10 (by decide)⟩

theorem extractRoute_head (next : Nat → Nat) (isEnd : Nat → Bool) (cost : Nat → Nat → Nat)
    (fuel idx : Nat) : (extractRoute next isEnd cost fuel idx).1.head? = some idx := by
  cases fuel with
  | zero => rfl
  | succ fuel => cases hE : isEnd idx <;> simp [extractRoute, hE]

theorem pairSum_cons (cost : Nat → Nat → Nat) (a b : Nat) (l : List Nat)
    (h : l.head? = some b) : pairSum cost (a :: l) = cost a b + pairSum cost l := by
  cases l with
  | nil => simp at h
  | cons x t =>
    simp only [List.head?_cons, Option.some.injEq] at h
    subst h
    rfl

theorem extractRoute_cost_eq (next : Nat → Nat) (isEnd : Nat → Bool) (cost : Nat → Nat → Nat) :
    ∀ fuel idx, (extractRoute next isEnd cost fuel idx).2
      = pairSum cost (extractRoute next isEnd cost fuel idx).1 := by
  intro fuel
  induction fuel with
  | zero => intro idx; rfl
  | succ fuel ih =>
    intro idx
    cases hE : isEnd idx with
    | true => simp [extractRoute, hE, pairSum]
    | false =>
      have hh := extractRoute_head next isEnd cost fuel (next idx)
      simp only [extractRoute, hE, Bool.false_eq_true, if_false]
      rw [pairSum_cons cost idx (next idx) _ hh, ih]

theorem foldl_add_snd (rs : List (List Nat × Nat)) :
    ∀ acc : Nat, rs.foldl (fun a r => a + r.2) acc = acc + (rs.map (fun r => r.2)).sum := by
  induction rs with
  | nil => intro acc; simp
  | cons r t ih =>
    intro acc
    simp only [List.foldl_cons, List.map_cons, List.sum_cons, ih]
    omega

theorem map_ext_sum {α : Type} (f g : α → Nat) (l : List α) (h : ∀ x ∈ l, f x = g x) :
    (l.map f).sum = (l.map g).sum := by
  induction l with
  | nil => rfl
  | cons a t ih =>
    simp only [List.map_cons, List.sum_cons]
    rw [h a (by simp), ih (fun x hx => h x (by simp [hx]))]

/-- **C2.** The extractor walks each vehicle's route from its start index
(the walked stop sequence begins with the start and, whenever an end
index is reachable within the loop bound, finishes at an end index); the
route distance it accumulates equals the sum of the per-arc costs of the
consecutive stops of that walk; and the reported total distance equals
the sum of the per-route distances (equivalently, of the per-route
pairwise cost sums). -/
theorem extractor_reports_pairwise_sums :
    (∀ (next : Nat → Nat) (isEnd : Nat → Bool) (cost : Nat → Nat → Nat) (fuel idx : Nat),
      (extractRoute next isEnd cost fuel idx).2
        = pairSum cost (extractRoute next isEnd cost fuel idx).1) ∧
    (∀ (next : Nat → Nat) (isEnd : Nat → Bool) (cost : Nat → Nat → Nat) (fuel idx : Nat),
      (extractRoute next isEnd cost fuel idx).1.head? = some idx) ∧
    (∀ (next : Nat → Nat) (isEnd : Nat → Bool) (cost : Nat → Nat → Nat) (fuel idx : Nat),
      (∃ k, k ≤ fuel ∧ isEnd (next^[k] idx) = true) →
      ∃ e, (extractRoute next isEnd cost fuel idx).1.getLast? = some e ∧ isEnd e = true) ∧
    (∀ (next : Nat → Nat) (isEnd : Nat → Bool) (cost : Nat → Nat → Nat)
        (startIdxs : List Nat) (fuel : Nat),
      (print_solution next isEnd cost startIdxs fuel).2
        = ((print_solution next isEnd cost startIdxs fuel).1.map
            (fun r => pairSum cost r.1)).sum) := by
  refine ⟨extractRoute_cost_eq, extractRoute_head, ?_, ?_⟩
  · intro next isEnd cost fuel
    induction fuel with
    | zero =>
      rintro idx ⟨k, hk, hke⟩
      have hk0 : k = 0 := by omega
      subst hk0
      simp only [Function.iterate_zero, id_eq] at hke
      exact ⟨idx, by simp [extractRoute], hke⟩
    | succ fuel ih =>
      rintro idx ⟨k, hk, hke⟩
      cases hE : isEnd idx with
      | true => exact ⟨idx, by simp [extractRoute, hE], hE⟩
      | false =>
        have hk0 : k ≠ 0 := by
          rintro rfl
          simp only [Function.iterate_zero, id_eq] at hke
          rw [hke] at hE
          cases hE
        obtain ⟨k', rfl⟩ := Nat.exists_eq_succ_of_ne_zero hk0
        rw [Function.iterate_succ_apply] at hke
        obtain ⟨e, he, hee⟩ := ih (next idx) ⟨k', by omega, hke⟩
        refine ⟨e, ?_, hee⟩
        simp only [extractRoute, hE, Bool.false_eq_true, if_false]
        have hh := extractRoute_head next isEnd cost fuel (next idx)
        cases hrest : (extractRoute next isEnd cost fuel (next idx)).1 with
        | nil => rw [hrest] at hh; simp at hh
        | cons b t =>
          rw [hrest] at he
          simp only [List.getLast?_cons_cons]
          exact he
  · intro next isEnd cost startIdxs fuel
    show (startIdxs.map (fun s => extractRoute next isEnd cost fuel s)).foldl
        (fun acc r => acc + r.2) 0
      = ((startIdxs.map (fun s => extractRoute next isEnd cost fuel s)).map
          (fun r => pairSum cost r.1)).sum
    rw [foldl_add_snd, Nat.zero_add, List.map_map, List.map_map]
    exact map_ext_sum _ _ startIdxs
      (fun s _ => extractRoute_cost_eq next isEnd cost fuel s)

/-- Witness for C2's reach-the-end conjunct on a concrete chain
0 → 1 → 2 → 3 with end index 3. -/
theorem extractor_reports_pairwise_sums_witness :
    (∃ k, k ≤ 5 ∧ ((fun i => i == 3) ((fun i => i + 1)^[k] 0)) = true) ∧
    ∃ e, (extractRoute (fun i => i + 1) (fun i => i == 3) (fun i j => i + j) 5 0).1.getLast?
        = some e ∧ (e == 3) = true :=
  ⟨⟨3, by decide, by decide⟩,
    extractor_reports_pairwise_sums.2.2.1 (fun i => i + 1) (fun i => i == 3)
      (fun i j => i + j) 5 0 ⟨3, by decide, by decide⟩⟩

/-- **C3.** Whenever there are strictly fewer customers than vehicles, no
assignment of routes can satisfy the minimum-visit side constraint
(ArcCount end cumul ≥ 2) together with each customer being visited at
most once — every vehicle would need its own customer — so the model is
infeasible and the run surfaces the no-solution diagnostic instead of a
partial solution. -/
theorem fewer_customers_than_vehicles_infeasible :
    (∀ (numV : Nat) (startOf endOf : Nat → Nat) (customers : Finset Nat),
      customers.card < numV →
      ¬ ∃ routes : Fin numV → List Nat, Feasible numV startOf endOf customers routes) ∧
    (∀ (isEnd : Nat → Bool) (cost : Nat → Nat → Nat) (startIdxs : List Nat) (fuel : Nat),
      mainReport none isEnd cost startIdxs fuel = [OutEvent.noSolutionLine]) := by
  constructor
  · intro numV startOf endOf customers hcard
    rintro ⟨routes, hhead, hlast, hmem, hnodup, hdisj, hmin⟩
    have hne : ∀ v, interior (routes v) ≠ [] :=
      fun v => interior_ne_nil_of_min_visit _ (hmin v)
    let f : Fin numV → {x // x ∈ customers} :=
      fun v => ⟨(interior (routes v)).head (hne v), hmem v _ (List.head_mem (hne v))⟩
    have hinj : Function.Injective f := by
      intro v w hvw
      by_contra hne2
      have h1 : (interior (routes v)).head (hne v) ∈ interior (routes v) :=
        List.head_mem _
      have h2 : (interior (routes v)).head (hne v) ∈ interior (routes w) := by
        have he : (interior (routes v)).head (hne v) = (interior (routes w)).head (hne w) :=
          congrArg Subtype.val hvw
        rw [he]
        exact List.head_mem _
      exact hdisj v w hne2 _ h1 h2
    have hcard2 := Fintype.card_le_of_injective f hinj
    simp only [Fintype.card_coe, Fintype.card_fin] at hcard2
    omega
  · intro isEnd cost startIdxs fuel
    rfl

/-- Witness for C3: one customer, two vehicles. -/
theorem fewer_customers_than_vehicles_infeasible_witness :
    ({2} : Finset Nat).card < 2 ∧
    ¬ ∃ routes : Fin 2 → List Nat,
        Feasible 2 (fun _ => 0) (fun _ => 0) ({2} : Finset Nat) routes :=
  ⟨by decide,
    fewer_customers_than_vehicles_infeasible.1 2 (fun _ => 0) (fun _ => 0) {2} (by decide)⟩

/-- **C1.** The ArcCount transit adds exactly 1 per traversed arc
whatever the nodes are; the dimension is created with slack 0, upper
bound 1000 and a zero start cumul, and only afterwards — as separate
solver constraints, not as the dimension's bound — the `end_cumul >= 2`
requirement is posted for every vehicle; consequently every vehicle's
route in a feasible solution visits at least one customer. -/
theorem arcCount_side_constraint_forces_customer :
    (∀ i j, one_per_arc_cb i j = 1) ∧
    (∃ k, modelEvents.getD k (ModelEvent.setArcCostEvaluatorOfAllVehicles "") =
        ModelEvent.addDimension "arc_idx" 0 1000 true "ArcCount" ∧
      ∀ v, v < num_vehicles → ∃ m, k < m ∧
        modelEvents.getD m (ModelEvent.setArcCostEvaluatorOfAllVehicles "") =
          ModelEvent.addEndCumulLowerBound "ArcCount" v 2) ∧
    (∀ routes, FeasibleSol routes → ∀ v : Fin num_vehicles,
      ∃ x ∈ interior (routes v), x ∈ customersIdx) := by
  refine ⟨fun _ _ => rfl, ⟨3, by decide, ?_⟩, ?_⟩
  · intro v hv
    rw [show num_vehicles = 4 from by decide] at hv
    refine ⟨4 + v, by omega, ?_⟩
    interval_cases v <;> decide
  · intro routes hf v
    obtain ⟨⟨hhead, hlast, hmem, hnodup, hdisj, hmin⟩, _, _, _⟩ := hf
    have hne := interior_ne_nil_of_min_visit _ (hmin v)
    exact ⟨(interior (routes v)).head hne, List.head_mem hne,
      hmem v _ (List.head_mem hne)⟩

/-- Witness for C1 on the concrete feasible solution `wRoutes`. -/
theorem arcCount_side_constraint_forces_customer_witness :
    FeasibleSol wRoutes ∧
    ∃ x ∈ interior (wRoutes ⟨0, by decide⟩), x ∈ customersIdx := by
  have hf : FeasibleSol wRoutes := by decide
  exact ⟨hf, arcCount_side_constraint_forces_customer.2.2 wRoutes hf ⟨0, by decide⟩⟩

/-- **C5.** The Capacity demand is 1 at every customer node and 0 at the
depot anchors, the dimension starts at zero (`fix_start_cumul_to_zero`)
with per-vehicle capacity 4 for every vehicle, and consequently no
vehicle serves more than 4 customers in a feasible solution. -/
theorem capacity_dimension_bounds_customers :
    (∀ x ∈ starts, demand_cb x = 0) ∧
    (∀ x ∈ ends, demand_cb x = 0) ∧
    (∀ c ∈ customersIdx, demand_cb c = 1) ∧
    (∀ v, v < num_vehicles → vehicle_capacities.getD v 0 = 4) ∧
    (ModelEvent.addDimensionWithVehicleCapacity "demand_idx" 0 vehicle_capacities true "Capacity"
        ∈ modelEvents) ∧
    (∀ routes, FeasibleSol routes → ∀ v : Fin num_vehicles,
      (interior (routes v)).length ≤ 4) := by
  have hstart0 : ∀ v : Fin num_vehicles, demand_cb (startOfVehicle v.val) = 0 := by decide
  have hcust1 : ∀ c ∈ customersIdx, demand_cb c = 1 := by decide
  have hcap4 : ∀ v : Fin num_vehicles, vehicle_capacities.getD v.val 0 = 4 := by decide
  refine ⟨by decide, by decide, hcust1, by decide, by decide, ?_⟩
  intro routes hf v
  obtain ⟨⟨hhead, hlast, hmem, hnodup, hdisj, hmin⟩, hcap, hdist, harc⟩ := hf
  have hlen : 3 ≤ (routes v).length := by
    have h := hmin v
    rw [endCumulBinary_one_per_arc] at h
    omega
  cases hr : routes v with
  | nil => rw [hr] at hlen; simp at hlen
  | cons a l =>
    have hlne : l ≠ [] := by
      intro hnil
      rw [hr, hnil] at hlen
      simp at hlen
    have ha : a = startOfVehicle v.val := by
      have h := hhead v
      rw [hr] at h
      simpa using h
    have hda : demand_cb a = 0 := by
      rw [ha]
      exact hstart0 v
    have hall1 : ∀ x ∈ interior (a :: l), demand_cb x = 1 := by
      intro x hx
      apply hcust1
      apply hmem v
      rw [hr]
      exact hx
    have hsum := sum_map_eq_length_of_all_one demand_cb (interior (a :: l)) hall1
    have hcapv := hcap v
    rw [hr, endCumulUnary_cons _ _ _ hlne, hda, hsum, hcap4 v] at hcapv
    omega

/-- Witness for C5 on the concrete feasible solution `wRoutes`. -/
theorem capacity_dimension_bounds_customers_witness :
    FeasibleSol wRoutes ∧ (interior (wRoutes ⟨0, by decide⟩)).length ≤ 4 := by
  have hf : FeasibleSol wRoutes := by decide
  exact ⟨hf, capacity_dimension_bounds_customers.2.2.2.2.2 wRoutes hf ⟨0, by decide⟩⟩

/-- **C6.** The Distance dimension is created from the very callback that
is the routing objective (`transit_idx`), with zero slack, zero start
cumul, and upper bound 120; consequently in a feasible solution no
vehicle's route distance — the pairwise arc-cost sum the extractor
reports — exceeds 120. -/
theorem distance_dimension_caps_route_distance :
    (ModelEvent.addDimension "transit_idx" 0 120 true "Distance" ∈ modelEvents) ∧
    (ModelEvent.setArcCostEvaluatorOfAllVehicles "transit_idx" ∈ modelEvents) ∧
    registeredCallback "transit_idx" = dist_cb ∧
    (∀ routes, FeasibleSol routes → ∀ v : Fin num_vehicles,
      pairSum dist_cb (routes v) ≤ 120) := by
  refine ⟨by decide, by decide, rfl, ?_⟩
  intro routes hf v
  obtain ⟨_, _, hdist, _⟩ := hf
  rw [pairSum_eq_endCumulBinary]
  exact hdist v

/-- Witness for C6 on the concrete feasible solution `wRoutes`. -/
theorem distance_dimension_caps_route_distance_witness :
    FeasibleSol wRoutes ∧ pairSum dist_cb (wRoutes ⟨2, by decide⟩) ≤ 120 := by
  have hf : FeasibleSol wRoutes := by decide
  exact ⟨hf, distance_dimension_caps_route_distance.2.2.2 wRoutes hf ⟨2, by decide⟩⟩

end CollabRouting
